import Mathlib

/-!
Shallow embedding of the orchestration core of `src/app.py` (a marketing-mix
budget-allocation app): the calendar covariate builder
`add_holiday_columns_to_array` and the allocation orchestrator
`budget_allocator` together with the reporting table assembled at the call
site.  Calendar dates are modelled as day numbers (days since 0000-03-01,
proleptic Gregorian calendar), matching the ordering and day arithmetic of
`datetime.date` / pandas timestamps used in the source.  The external
holiday source (the `holidays` Python package) and the fitted scalers,
model and solver are external collaborators: they enter as parameters, and
the concrete US holiday calendars for 2023 and 2024 instantiate the holiday
source for the end-to-end scenarios.
-/

/-- Day number of a Gregorian calendar date, counted from 0000-03-01
(civil-from-days algorithm restricted to nonnegative years, as used by
`datetime.date` ordering: later dates get larger numbers, adding one day
adds one). -/
def daysFromCivil (y m d : Nat) : Nat :=
  let y2 := if m ≤ 2 then y - 1 else y
  let era := y2 / 400
  let yoe := y2 - era * 400
  let mp := (m + 9) % 12
  let doy := (153 * mp + 2) / 5 + d - 1
  let doe := yoe * 365 + yoe / 4 - yoe / 100 + doy
  era * 146097 + doe

/-- Calendar year of a day number (inverse of `daysFromCivil` on the year
component); embeds the `.dt.year` accessor of the source. -/
def yearOfDay (z : Nat) : Nat :=
  let era := z / 146097
  let doe := z % 146097
  let yoe := (doe - doe / 1460 + doe / 36524 - doe / 146096) / 365
  let y := yoe + era * 400
  let doy := doe - (365 * yoe + yoe / 4 - yoe / 100)
  let mp := (5 * doy + 2) / 153
  let m := if mp < 10 then mp + 3 else mp - 9
  if m ≤ 2 then y + 1 else y

/-- Week-start timestamps of the source, line 30:
`[pd.to_datetime(end_date) + pd.DateOffset(weeks=x) for x in range(1, time_period + 1)]`;
one week is seven days. -/
def weeks (end_date : Nat) (time_period : Nat) : List Nat :=
  (List.range time_period).map (fun x => end_date + 7 * (x + 1))

/-- Helper of `dedupFirst`: keep the elements not yet seen, in order,
remembering the seen ones. -/
def dedupFirstGo {α : Type} [DecidableEq α] (seen : List α) : List α → List α
  | [] => []
  | x :: xs =>
    if x ∈ seen then dedupFirstGo seen xs else x :: dedupFirstGo (x :: seen) xs

/-- First-occurrence deduplication, the semantics of pandas `.unique()` and
of insertion-ordered Python dict keys. -/
def dedupFirst {α : Type} [DecidableEq α] (l : List α) : List α :=
  dedupFirstGo [] l

/-- Years spanned by the week-start dates, line 35:
`unique_years = df['week'].dt.year.unique()` (order of first appearance). -/
def uniqueYears (end_date : Nat) (time_period : Nat) : List Nat :=
  dedupFirst ((weeks end_date time_period).map yearOfDay)

/-- Helper of `replaceAll`: `skip` counts characters still to drop from a
match already emitted; at `skip = 0` the next match is sought. -/
def replaceGo (pat repl : List Char) : Nat → List Char → List Char
  | _, [] => []
  | Nat.succ n, _ :: rest => replaceGo pat repl n rest
  | 0, c :: rest =>
    if pat.isPrefixOf (c :: rest) then
      repl ++ replaceGo pat repl (pat.length - 1) rest
    else
      c :: replaceGo pat repl 0 rest

/-- Python `str.replace pat repl`: leftmost non-overlapping replacement of
every occurrence, transcribed to character lists.  An empty pattern leaves
the string unchanged (the source only uses nonempty patterns). -/
def replaceAll (pat repl : List Char) (s : List Char) : List Char :=
  if pat = [] then s else replaceGo pat repl 0 s

/-- Python `s.split(pat)[0]` for a nonempty pattern: the characters before
the first occurrence of the pattern (the whole string if absent). -/
def takeUntilPat (pat : List Char) : List Char → List Char
  | [] => []
  | c :: rest =>
    if pat.isPrefixOf (c :: rest) then [] else c :: takeUntilPat pat rest

/-- Possessive marker `\x27s` as a character pattern. -/
def aposS : List Char := ['\x27', 's']

/-- Prefix-free part of the canonicalization of line 41:
`name.split(' (')[0].replace("'s", "").replace(".", "").replace(" ", "_").lower()`. -/
def cleanChars (s : List Char) : List Char :=
  (replaceAll [' '] ['_']
    (replaceAll ['.'] []
      (replaceAll aposS []
        (takeUntilPat [' ', '('] s)))).map Char.toLower

/-- Holiday-name canonicalization of the source, line 41, on character
lists: `"hldy_" + name.split(' (')[0].replace("'s", "").replace(".", "").replace(" ", "_").lower()`. -/
def standardizeChars (s : List Char) : List Char :=
  "hldy_".data ++ cleanChars s

/-- Holiday-name canonicalization on strings (the standardized column
name of the source). -/
def standardize (s : String) : String :=
  ⟨standardizeChars s.data⟩

/-- Lexicographic order on (date, label) pairs: the order Python `sorted`
uses on the items of the holiday dict at line 39. -/
def hLe (a b : Nat × String) : Prop :=
  a.1 < b.1 ∨ (a.1 = b.1 ∧ a.2 ≤ b.2)

instance : DecidableRel hLe := fun a b => by
  unfold hLe; infer_instance

instance : IsTotal (Nat × String) hLe := by
  constructor
  intro a b
  unfold hLe
  rcases Nat.lt_trichotomy a.1 b.1 with h | h | h
  · exact Or.inl (Or.inl h)
  · rcases le_total a.2 b.2 with h2 | h2
    · exact Or.inl (Or.inr ⟨h, h2⟩)
    · exact Or.inr (Or.inr ⟨h.symm, h2⟩)
  · exact Or.inr (Or.inl h)

instance : IsTrans (Nat × String) hLe := by
  constructor
  intro a b c hab hbc
  unfold hLe at *
  rcases hab with h1 | ⟨h1, h1s⟩ <;> rcases hbc with h2 | ⟨h2, h2s⟩
  · exact Or.inl (h1.trans h2)
  · exact Or.inl (h2 ▸ h1)
  · exact Or.inl (h1 ▸ h2)
  · exact Or.inr ⟨h1.trans h2, h1s.trans h2s⟩

instance : IsAntisymm (Nat × String) hLe := by
  constructor
  intro a b hab hba
  unfold hLe at *
  rcases hab with h1 | ⟨h1, h1s⟩ <;> rcases hba with h2 | ⟨h2, h2s⟩
  · exact absurd h2 (Nat.lt_asymm h1)
  · exact absurd h1 (h2 ▸ Nat.lt_irrefl _)
  · exact absurd h2 (h1 ▸ Nat.lt_irrefl _)
  · exact Prod.ext h1 (le_antisymm h1s h2s)

/-- Date-sorted list of the holidays of the given years, line 39:
`sorted(holidays.US(years=unique_years).items())` with the external holiday
source as the parameter `cal` (year ↦ list of (date, label) pairs). -/
def allHolidaysSorted (cal : Nat → List (Nat × String)) (years : List Nat) :
    List (Nat × String) :=
  List.insertionSort hLe (years.flatMap cal)

/-- Column names of the holiday dict built at lines 38-42: standardized
names in first-occurrence order over the date-sorted holiday list
(insertion order of `holiday_dict.setdefault`). -/
def holidayColumns (hs : List (Nat × String)) : List String :=
  dedupFirst (hs.map (fun h => standardize h.2))

/-- Date set stored for one standardized column by the
`holiday_dict.setdefault(standardized_name, set()).add(date)` loop: all
dates of the list whose label standardizes to the column name. -/
def holidayDates (hs : List (Nat × String)) (c : String) : List Nat :=
  (hs.filter (fun h => standardize h.2 = c)).map (fun h => h.1)

/-- Indicator row for one week, lines 49-54: for each column, 1 when some
holiday date of the column falls in the closed window
[week_start, week_start + 6], else 0. -/
def holidayRow (hs : List (Nat × String)) (week_start : Nat) : List Nat :=
  (holidayColumns hs).map (fun c =>
    if (holidayDates hs c).any (fun d =>
        decide (week_start ≤ d) && decide (d ≤ week_start + 6)) then 1 else 0)

/-- Pre-scaling indicator matrix of `add_holiday_columns_to_array`: one row
per week in week order (lines 30 and 49), one column per standardized
holiday name, the `week` column already dropped (line 57). -/
def preMatrix (cal : Nat → List (Nat × String)) (end_date : Nat)
    (time_period : Nat) : List (List Nat) :=
  let hs := allHolidaysSorted cal (uniqueYears end_date time_period)
  (weeks end_date time_period).map (holidayRow hs)

/-- Full builder `add_holiday_columns_to_array` (lines 29-63): the
pre-scaling indicator matrix passed through the external fitted scaler
(`extra_scaler.transform`, line 62), modelled as an opaque function
parameter. -/
def add_holiday_columns_to_array {Scaled : Type}
    (extra_scaler : List (List Nat) → Scaled)
    (cal : Nat → List (Nat × String))
    (end_date : Nat) (time_period : Nat) : Scaled :=
  extra_scaler (preMatrix cal end_date time_period)

/-- US federal holidays of 2023 as supplied by the external holiday source
(`holidays.US(years=[2023])`): (date, label) pairs, observed shifts
included. -/
def usHolidays2023 : List (Nat × String) :=
  [(daysFromCivil 2023 1 1, "New Year\x27s Day"),
   (daysFromCivil 2023 1 2, "New Year\x27s Day (observed)"),
   (daysFromCivil 2023 1 16, "Martin Luther King Jr. Day"),
   (daysFromCivil 2023 2 20, "Washington\x27s Birthday"),
   (daysFromCivil 2023 5 29, "Memorial Day"),
   (daysFromCivil 2023 6 19, "Juneteenth National Independence Day"),
   (daysFromCivil 2023 7 4, "Independence Day"),
   (daysFromCivil 2023 9 4, "Labor Day"),
   (daysFromCivil 2023 10 9, "Columbus Day"),
   (daysFromCivil 2023 11 10, "Veterans Day (observed)"),
   (daysFromCivil 2023 11 11, "Veterans Day"),
   (daysFromCivil 2023 11 23, "Thanksgiving"),
   (daysFromCivil 2023 12 25, "Christmas Day")]

/-- US federal holidays of 2024 as supplied by the external holiday source
(`holidays.US(years=[2024])`): no observed shifts occur in 2024. -/
def usHolidays2024 : List (Nat × String) :=
  [(daysFromCivil 2024 1 1, "New Year\x27s Day"),
   (daysFromCivil 2024 1 15, "Martin Luther King Jr. Day"),
   (daysFromCivil 2024 2 19, "Washington\x27s Birthday"),
   (daysFromCivil 2024 5 27, "Memorial Day"),
   (daysFromCivil 2024 6 19, "Juneteenth National Independence Day"),
   (daysFromCivil 2024 7 4, "Independence Day"),
   (daysFromCivil 2024 9 2, "Labor Day"),
   (daysFromCivil 2024 10 14, "Columbus Day"),
   (daysFromCivil 2024 11 11, "Veterans Day"),
   (daysFromCivil 2024 11 28, "Thanksgiving"),
   (daysFromCivil 2024 12 25, "Christmas Day")]

/-- US holiday source instantiated for the years the end-to-end scenarios
touch (empty outside 2023-2024; the scenario claims only query these). -/
def usCal : Nat → List (Nat × String) := fun y =>
  if y = 2023 then usHolidays2023 else if y = 2024 then usHolidays2024 else []

/-- Holiday source with no data at all, for the no-calendar-data scenario. -/
def emptyCal : Nat → List (Nat × String) := fun _ => []

/-- Banker (half-to-even) rounding of a rational to an integer: the
rounding mode of Python / numpy `round`. -/
def roundHalfEven (x : Rat) : Int :=
  let f : Int := x.num.fdiv x.den
  let r : Rat := x - (f : Rat)
  if r < 1/2 then f
  else if 1/2 < r then f + 1
  else if f % 2 = 0 then f else f + 1

/-- Python `round(x, 2)`: half-to-even rounding at two decimal places. -/
def round2 (x : Rat) : Rat :=
  (roundHalfEven (x * 100) : Rat) / 100

/-- Previous per-channel currency allocation, line 156:
`round(prices * previous_media_allocation, 2)` elementwise. -/
def previous_budget_allocation (prices prev : List Rat) : List Rat :=
  List.zipWith (fun p a => round2 (p * a)) prices prev

/-- Optimal per-channel currency allocation, line 157:
`round(prices * solution.x, 2)` elementwise. -/
def optimal_budget_allocation (prices x : List Rat) : List Rat :=
  List.zipWith (fun p a => round2 (p * a)) prices x

/-- Reporting table of lines 158-174: one (media, optimal, previous) row
per channel, then the appended total row
`['Total', optimal_budget_allocation.sum(), previous_budget_allocation.sum()]`. -/
def table_data (media_names : List String) (prices prev x : List Rat) :
    List (String × Rat × Rat) :=
  (media_names.zip
    ((optimal_budget_allocation prices x).zip
      (previous_budget_allocation prices prev))).map
        (fun row => (row.1, row.2.1, row.2.2))
  ++ [("Total", (optimal_budget_allocation prices x).sum,
        (previous_budget_allocation prices prev).sum)]

/-- Argument record of the single `optimize_media.find_optimal_budgets`
call at lines 68-78; `Model` and `Scaler` are the opaque collaborator
types, `Scaled` the scaled-covariate type. -/
structure SolverArgs (Model Scaler Scaled : Type) where
  n_time_periods : Nat
  media_mix_model : Model
  extra_features : Scaled
  budget : Rat
  prices : List Rat
  media_scaler : Scaler
  target_scaler : Scaler
  bounds_lower_pct : Rat
  bounds_upper_pct : Rat
  seed : Nat

/-- Orchestrator `budget_allocator` (lines 66-79): builds the scaled
covariates and invokes the external solver with fixed bounds 0.05 / 0.95
and seed 1; the solver is the opaque parameter `find_optimal_budgets`. -/
def budget_allocator {Model Scaler Scaled Result : Type}
    (find_optimal_budgets : SolverArgs Model Scaler Scaled → Result)
    (extra_scaler : List (List Nat) → Scaled)
    (cal : Nat → List (Nat × String))
    (n_weeks_to_predict : Nat) (budget_to_allocate : Rat) (mmm : Model)
    (media_scaler target_scaler : Scaler) (prices : List Rat)
    (end_date : Nat) : Result :=
  find_optimal_budgets
    { n_time_periods := n_weeks_to_predict
      media_mix_model := mmm
      extra_features :=
        add_holiday_columns_to_array extra_scaler cal end_date n_weeks_to_predict
      budget := budget_to_allocate
      prices := prices
      media_scaler := media_scaler
      target_scaler := target_scaler
      bounds_lower_pct := 0.05
      bounds_upper_pct := 0.95
      seed := 1 }

/-- Run-button pipeline of lines 142-174 restricted to the allocation
path, with solver failure modelled as `Except`: invoke the orchestrator,
then build the reporting table from the solver result (previous allocation
and solution vector); a solver exception skips the table entirely. -/
def run_allocation {Model Scaler Scaled E : Type}
    (find_optimal_budgets :
      SolverArgs Model Scaler Scaled → Except E (List Rat × List Rat))
    (extra_scaler : List (List Nat) → Scaled)
    (cal : Nat → List (Nat × String))
    (media_names : List String)
    (n_weeks_to_predict : Nat) (budget_to_allocate : Rat) (mmm : Model)
    (media_scaler target_scaler : Scaler) (prices : List Rat)
    (end_date : Nat) : Except E (List (String × Rat × Rat)) := do
  let r ← budget_allocator find_optimal_budgets extra_scaler cal
            n_weeks_to_predict budget_to_allocate mmm media_scaler
            target_scaler prices end_date
  pure (table_data media_names prices r.1 r.2)

lemma mem_dedupFirstGo {α : Type} [DecidableEq α] (a : α) :
    ∀ (l seen : List α), a ∈ dedupFirstGo seen l ↔ a ∈ l ∧ a ∉ seen
  | [], seen => by simp [dedupFirstGo]
  | x :: xs, seen => by
    rw [dedupFirstGo]
    by_cases hx : x ∈ seen
    · rw [if_pos hx, mem_dedupFirstGo a xs seen]
      constructor
      · exact fun ⟨h1, h2⟩ => ⟨List.mem_cons_of_mem x h1, h2⟩
      · rintro ⟨h1, h2⟩
        rcases List.mem_cons.mp h1 with rfl | h1
        · exact absurd hx h2
        · exact ⟨h1, h2⟩
    · rw [if_neg hx]
      simp only [List.mem_cons, mem_dedupFirstGo a xs (x :: seen)]
      constructor
      · rintro (rfl | ⟨h1, h2⟩)
        · exact ⟨Or.inl rfl, hx⟩
        · exact ⟨Or.inr h1, fun hs => h2 (Or.inr hs)⟩
      · rintro ⟨rfl | h1, h2⟩
        · exact Or.inl rfl
        · by_cases hax : a = x
          · exact Or.inl hax
          · exact Or.inr ⟨h1, fun hs => (hs.elim (fun h => hax h) (fun h => h2 h) : False)⟩

lemma mem_dedupFirst {α : Type} [DecidableEq α] (a : α) (l : List α) :
    a ∈ dedupFirst l ↔ a ∈ l := by
  rw [dedupFirst, mem_dedupFirstGo]
  simp

lemma flatMap_perm_of_perm {α β : Type} (f g : α → List β)
    (h : ∀ y, (f y).Perm (g y)) : ∀ l : List α, (l.flatMap f).Perm (l.flatMap g)
  | [] => by simp
  | y :: ys => by
    simp only [List.flatMap_cons]
    exact (h y).append (flatMap_perm_of_perm f g h ys)

lemma allHolidaysSorted_congr_perm (cal1 cal2 : Nat → List (Nat × String))
    (h : ∀ y, (cal1 y).Perm (cal2 y)) (years : List Nat) :
    allHolidaysSorted cal1 years = allHolidaysSorted cal2 years := by
  apply List.eq_of_perm_of_sorted (r := hLe)
  · exact (List.perm_insertionSort hLe _).trans
      ((flatMap_perm_of_perm cal1 cal2 h years).trans
        (List.perm_insertionSort hLe _).symm)
  · exact List.sorted_insertionSort hLe _
  · exact List.sorted_insertionSort hLe _

lemma mem_allHolidaysSorted (cal : Nat → List (Nat × String)) (years : List Nat)
    (p : Nat × String) :
    p ∈ allHolidaysSorted cal years ↔ ∃ y ∈ years, p ∈ cal y := by
  rw [allHolidaysSorted, (List.perm_insertionSort hLe _).mem_iff]
  exact List.mem_flatMap

lemma mem_holidayDates (hs : List (Nat × String)) (c : String) (d : Nat) :
    d ∈ holidayDates hs c ↔ ∃ nm, (d, nm) ∈ hs ∧ standardize nm = c := by
  rw [holidayDates]
  simp only [List.mem_map, List.mem_filter, decide_eq_true_eq]
  constructor
  · rintro ⟨⟨d0, nm⟩, ⟨hmem, hstd⟩, rfl⟩
    exact ⟨nm, hmem, hstd⟩
  · rintro ⟨nm, hmem, hstd⟩
    exact ⟨(d, nm), ⟨hmem, hstd⟩, rfl⟩

lemma roundHalfEven_intCast (k : Int) : roundHalfEven (k : Rat) = k := by
  unfold roundHalfEven
  simp

lemma round2_intCast (k : Int) : round2 (k : Rat) = (k : Rat) := by
  unfold round2
  have h : ((k : Rat) * 100) = ((k * 100 : Int) : Rat) := by push_cast; ring
  rw [h, roundHalfEven_intCast]
  push_cast
  ring

lemma weeks_length (end_date time_period : Nat) :
    (weeks end_date time_period).length = time_period := by
  simp [weeks]

lemma weeks_getElem (end_date time_period k : Nat) (hk : k < time_period) :
    (weeks end_date time_period).getD k 0 = end_date + 7 * (k + 1) := by
  rw [List.getD_eq_getElem _ _ (by rw [weeks_length]; exact hk)]
  simp [weeks]

lemma preMatrix_length (cal : Nat → List (Nat × String)) (end_date time_period : Nat) :
    (preMatrix cal end_date time_period).length = time_period := by
  simp [preMatrix, weeks]

lemma preMatrix_row (cal : Nat → List (Nat × String)) (end_date time_period i : Nat)
    (hi : i < time_period) :
    (preMatrix cal end_date time_period).getD i [] =
      holidayRow (allHolidaysSorted cal (uniqueYears end_date time_period))
        (end_date + 7 * (i + 1)) := by
  rw [preMatrix, List.getD_eq_getElem _ _ (by simpa [weeks] using hi)]
  simp [weeks]

/-- C4: for every valid forecast start date and every positive horizon, the
builder enumerates exactly `time_period` week-start timestamps, the k-th
being `end_date + 7 * (k + 1)` days (start + k+1-th week for k = 0-based),
in strictly ascending order; this fixes the row order of the output matrix,
and no horizon (also one larger than 12) is truncated or wrapped. -/
theorem weeks_enumeration (cal : Nat → List (Nat × String))
    (end_date time_period k : Nat) (hk : k < time_period) :
    (weeks end_date time_period).length = time_period ∧
    (weeks end_date time_period).getD k 0 = end_date + 7 * (k + 1) ∧
    (weeks end_date time_period).Pairwise (· < ·) ∧
    preMatrix cal end_date time_period =
      (weeks end_date time_period).map
        (holidayRow (allHolidaysSorted cal (uniqueYears end_date time_period))) ∧
    (preMatrix cal end_date time_period).length = time_period := by
  refine ⟨weeks_length _ _, weeks_getElem _ _ _ hk, ?_, rfl, preMatrix_length _ _ _⟩
  unfold weeks
  rw [List.pairwise_map]
  exact (List.pairwise_lt_range time_period).imp (fun hab => by omega)

/-- Witness for `weeks_enumeration` at a horizon of 13 weeks (beyond the
UI bound of 12): the 13th window exists and is not truncated. -/
theorem weeks_enumeration_witness :
    (weeks (daysFromCivil 2023 12 31) 13).length = 13 ∧
    (weeks (daysFromCivil 2023 12 31) 13).getD 12 0 =
      daysFromCivil 2023 12 31 + 7 * 13 ∧
    (weeks (daysFromCivil 2023 12 31) 13).Pairwise (· < ·) ∧
    preMatrix usCal (daysFromCivil 2023 12 31) 13 =
      (weeks (daysFromCivil 2023 12 31) 13).map
        (holidayRow (allHolidaysSorted usCal
          (uniqueYears (daysFromCivil 2023 12 31) 13))) ∧
    (preMatrix usCal (daysFromCivil 2023 12 31) 13).length = 13 :=
  weeks_enumeration usCal (daysFromCivil 2023 12 31) 13 12 (by decide)

/-- C6: the orchestrator invokes the external solver with the covariate
matrix built from the given forecast start date and horizon, the given
budget, prices and scalers, and the fixed constants: lower bound fraction
0.05 = 1/20, upper bound fraction 0.95 = 19/20, random seed 1; being the
unique call site, no other bound or seed values are ever passed. -/
theorem budget_allocator_solver_call {Model Scaler Scaled Result : Type}
    (find_optimal_budgets : SolverArgs Model Scaler Scaled → Result)
    (extra_scaler : List (List Nat) → Scaled)
    (cal : Nat → List (Nat × String))
    (n_weeks_to_predict : Nat) (budget_to_allocate : Rat) (mmm : Model)
    (media_scaler target_scaler : Scaler) (prices : List Rat)
    (end_date : Nat) :
    budget_allocator find_optimal_budgets extra_scaler cal n_weeks_to_predict
        budget_to_allocate mmm media_scaler target_scaler prices end_date =
      find_optimal_budgets
        { n_time_periods := n_weeks_to_predict
          media_mix_model := mmm
          extra_features :=
            extra_scaler (preMatrix cal end_date n_weeks_to_predict)
          budget := budget_to_allocate
          prices := prices
          media_scaler := media_scaler
          target_scaler := target_scaler
          bounds_lower_pct := 1/20
          bounds_upper_pct := 19/20
          seed := 1 } ∧
    (0.05 : Rat) = 1/20 ∧ (0.95 : Rat) = 19/20 := by
  refine ⟨?_, by norm_num, by norm_num⟩
  unfold budget_allocator add_holiday_columns_to_array
  norm_num

/-- C7: an error result of the external solver propagates unchanged out of
the orchestrator (which is exactly the solver call, no wrapping, retry or
fallback), and the run pipeline then produces no allocation table. -/
theorem solver_failure_propagates {Model Scaler Scaled E : Type}
    (find_optimal_budgets :
      SolverArgs Model Scaler Scaled → Except E (List Rat × List Rat))
    (extra_scaler : List (List Nat) → Scaled)
    (cal : Nat → List (Nat × String)) (media_names : List String)
    (n_weeks_to_predict : Nat) (budget_to_allocate : Rat) (mmm : Model)
    (media_scaler target_scaler : Scaler) (prices : List Rat)
    (end_date : Nat) (err : E)
    (h : budget_allocator find_optimal_budgets extra_scaler cal
          n_weeks_to_predict budget_to_allocate mmm media_scaler
          target_scaler prices end_date = Except.error err) :
    (∀ args, budget_allocator find_optimal_budgets extra_scaler cal
        n_weeks_to_predict budget_to_allocate mmm media_scaler target_scaler
        prices end_date = find_optimal_budgets args →
          find_optimal_budgets args = Except.error err) ∧
    run_allocation find_optimal_budgets extra_scaler cal media_names
        n_weeks_to_predict budget_to_allocate mmm media_scaler target_scaler
        prices end_date = Except.error err := by
  constructor
  · intro args hargs
    rw [← hargs]
    exact h
  · unfold run_allocation
    rw [h]
    rfl

/-- Witness for `solver_failure_propagates`: a solver that always fails
with error 7 yields error 7 from the whole pipeline and no table. -/
theorem solver_failure_propagates_witness :
    (∀ args, budget_allocator
        (fun _ : SolverArgs Unit Unit Unit => (Except.error 7 : Except Nat (List Rat × List Rat)))
        (fun _ => ()) emptyCal 1 100 () () () [1] 0 = (fun _ => Except.error 7) args →
          (fun _ : SolverArgs Unit Unit Unit => (Except.error 7 : Except Nat (List Rat × List Rat))) args = Except.error 7) ∧
    run_allocation
        (fun _ : SolverArgs Unit Unit Unit => (Except.error 7 : Except Nat (List Rat × List Rat)))
        (fun _ => ()) emptyCal ["tv"] 1 100 () () () [1] 0 = Except.error 7 :=
  solver_failure_propagates _ _ _ _ _ _ _ _ _ _ _ 7 rfl

lemma round2_eq_int (a : Rat) (k : Int) (h : a = (k : Rat)) :
    round2 a = (k : Rat) := by
  rw [h, round2_intCast]

/-- C2: the orchestrator call site computes the previous currency
allocation as `round(prices * previous_media_allocation, 2)` elementwise
and the optimal currency allocation as `round(prices * solution.x, 2)`
elementwise, and appends a row labeled "Total" holding the column-wise
sums of the two rounded currency vectors; for prices [2,5], previous media
allocation [10,4] and solution vector [8,5], the previous currency vector
is [20,20], the optimal one is [16,25] and the total row is
("Total", 41, 40). -/
theorem allocation_table_spec (media_names : List String)
    (prices prev x : List Rat) (i : Nat)
    (hip : i < prices.length) (hiv : i < prev.length) (hix : i < x.length) :
    (previous_budget_allocation prices prev).getD i 0 =
      round2 (prices.getD i 0 * prev.getD i 0) ∧
    (optimal_budget_allocation prices x).getD i 0 =
      round2 (prices.getD i 0 * x.getD i 0) ∧
    (table_data media_names prices prev x).getLast? =
      some ("Total", (optimal_budget_allocation prices x).sum,
        (previous_budget_allocation prices prev).sum) ∧
    previous_budget_allocation [2, 5] [10, 4] = [20, 20] ∧
    optimal_budget_allocation [2, 5] [8, 5] = [16, 25] ∧
    table_data ["a", "b"] [2, 5] [10, 4] [8, 5] =
      [("a", 16, 20), ("b", 25, 20), ("Total", 41, 40)] := by
  have hprev : previous_budget_allocation [2, 5] [10, 4] = [20, 20] := by
    unfold previous_budget_allocation
    simp only [List.zipWith]
    rw [round2_eq_int ((2:Rat) * 10) 20 (by norm_num),
        round2_eq_int ((5:Rat) * 4) 20 (by norm_num)]
    norm_num
  have hopt : optimal_budget_allocation [2, 5] [8, 5] = [16, 25] := by
    unfold optimal_budget_allocation
    simp only [List.zipWith]
    rw [round2_eq_int ((2:Rat) * 8) 16 (by norm_num),
        round2_eq_int ((5:Rat) * 5) 25 (by norm_num)]
    norm_num
  refine ⟨?_, ?_, ?_, hprev, hopt, ?_⟩
  · unfold previous_budget_allocation
    rw [List.getD_eq_getElem _ _ (by rw [List.length_zipWith]; omega),
        List.getElem_zipWith,
        List.getD_eq_getElem _ _ hip, List.getD_eq_getElem _ _ hiv]
  · unfold optimal_budget_allocation
    rw [List.getD_eq_getElem _ _ (by rw [List.length_zipWith]; omega),
        List.getElem_zipWith,
        List.getD_eq_getElem _ _ hip, List.getD_eq_getElem _ _ hix]
  · rw [table_data, List.getLast?_concat]
  · rw [table_data, hprev, hopt]
    norm_num [List.zip]

/-- Witness for `allocation_table_spec` at the end-to-end scenario input,
channel index 0. -/
theorem allocation_table_spec_witness :
    (previous_budget_allocation [2, 5] [10, 4]).getD 0 0 =
      round2 (([2, 5] : List Rat).getD 0 0 * ([10, 4] : List Rat).getD 0 0) ∧
    (optimal_budget_allocation [2, 5] [8, 5]).getD 0 0 =
      round2 (([2, 5] : List Rat).getD 0 0 * ([8, 5] : List Rat).getD 0 0) ∧
    (table_data ["a", "b"] [2, 5] [10, 4] [8, 5]).getLast? =
      some ("Total", (optimal_budget_allocation [2, 5] [8, 5]).sum,
        (previous_budget_allocation [2, 5] [10, 4]).sum) ∧
    previous_budget_allocation [2, 5] [10, 4] = [20, 20] ∧
    optimal_budget_allocation [2, 5] [8, 5] = [16, 25] ∧
    table_data ["a", "b"] [2, 5] [10, 4] [8, 5] =
      [("a", 16, 20), ("b", 25, 20), ("Total", 41, 40)] :=
  allocation_table_spec ["a", "b"] [2, 5] [10, 4] [8, 5] 0
    (by decide) (by decide) (by decide)

/-- C5 counterexample: with no holiday data available for the spanned
years, the builder raises no construction error: applied to the identity
scaler it returns a one-row, zero-column covariate matrix. -/
theorem no_holiday_data_returns_empty :
    add_holiday_columns_to_array (fun m => m) emptyCal
      (daysFromCivil 2023 12 31) 1 = [[]] ∧
    holidayColumns (allHolidaysSorted emptyCal
      (uniqueYears (daysFromCivil 2023 12 31) 1)) = [] := by
  constructor <;> decide

/-- C5 amended: when the holiday source yields no data, the builder does
not fail; it constructs a zero-column indicator matrix (one empty row per
week of the horizon) and hands it to the external scaler unexamined, so
any failure can only arise downstream in the scaler or solver. -/
theorem no_holiday_data_scaled_empty {Scaled : Type}
    (extra_scaler : List (List Nat) → Scaled) (end_date time_period : Nat) :
    add_holiday_columns_to_array extra_scaler emptyCal end_date time_period =
      extra_scaler (List.replicate time_period []) := by
  unfold add_holiday_columns_to_array
  congr 1
  have h1 : (uniqueYears end_date time_period).flatMap emptyCal = [] := by
    simp [emptyCal]
  unfold preMatrix allHolidaysSorted
  rw [h1]
  have h2 : holidayRow (List.insertionSort hLe []) = fun _ => [] := by
    funext w
    simp [holidayRow, holidayColumns, dedupFirst, dedupFirstGo,
      List.insertionSort]
  show List.map (holidayRow (List.insertionSort hLe []))
      (weeks end_date time_period) = _
  rw [h2, List.map_const', weeks_length]

/-- C1 counterexample: for forecast start date 2023-12-24 and horizon 1
the builder retrieves holidays only for year 2023 (the year of the single
week-start 2023-12-31), so the matrix has no column named
"hldy_new_years_day" at all — the canonicalization of "New Year\x27s Day"
removes the possessive "\x27s" entirely, producing "hldy_new_year_day" —
and the single row is all zeros, so no column holds 1. -/
theorem new_years_scenario_cex :
    "hldy_new_years_day" ∉ holidayColumns (allHolidaysSorted usCal
      (uniqueYears (daysFromCivil 2023 12 24) 1)) ∧
    preMatrix usCal (daysFromCivil 2023 12 24) 1 =
      [[0, 0, 0, 0, 0, 0, 0, 0, 0, 0, 0]] := by
  constructor <;> decide

/-- C1 amended: for start 2023-12-31 and horizon 2 the two week windows
start 2024-01-07 and 2024-01-14 and the New-Year column (canonically
"hldy_new_year_day", column 0) is 0 in both rows (the single 1 in row 2 is
Martin Luther King Jr. Day); for start 2023-12-24 and horizon 1 the window
[2023-12-31, 2024-01-06] contains New Year\x27s Day 2024-01-01, but since
holidays are retrieved only for the years of the week-start dates (2023),
the canonical column "hldy_new_year_day" is 0 and the row is all zeros. -/
theorem new_years_scenario_amended :
    weeks (daysFromCivil 2023 12 31) 2 =
      [daysFromCivil 2024 1 7, daysFromCivil 2024 1 14] ∧
    preMatrix usCal (daysFromCivil 2023 12 31) 2 =
      [[0, 0, 0, 0, 0, 0, 0, 0, 0, 0, 0], [0, 1, 0, 0, 0, 0, 0, 0, 0, 0, 0]] ∧
    (holidayColumns (allHolidaysSorted usCal
      (uniqueYears (daysFromCivil 2023 12 31) 2))).getD 0 "" =
        "hldy_new_year_day" ∧
    (holidayColumns (allHolidaysSorted usCal
      (uniqueYears (daysFromCivil 2023 12 31) 2))).getD 1 "" =
        "hldy_martin_luther_king_jr_day" ∧
    standardize "New Year\x27s Day" = "hldy_new_year_day" ∧
    uniqueYears (daysFromCivil 2023 12 24) 1 = [2023] ∧
    (holidayColumns (allHolidaysSorted usCal
      (uniqueYears (daysFromCivil 2023 12 24) 1))).getD 0 "" =
        "hldy_new_year_day" ∧
    daysFromCivil 2023 12 31 ≤ daysFromCivil 2024 1 1 ∧
    daysFromCivil 2024 1 1 ≤ daysFromCivil 2023 12 31 + 6 ∧
    preMatrix usCal (daysFromCivil 2023 12 24) 1 =
      [[0, 0, 0, 0, 0, 0, 0, 0, 0, 0, 0]] := by
  refine ⟨by decide, by decide, by decide, by decide, by decide, by decide,
    by decide, by decide, by decide, by decide⟩

/-- US holiday source with the 2024 entries listed in reverse order:
the same holiday dict contents under a different iteration order. -/
def usCalAlt : Nat → List (Nat × String) := fun y =>
  if y = 2024 then usHolidays2024.reverse else usCal y

lemma usCal_perm_usCalAlt : ∀ y, (usCal y).Perm (usCalAlt y) := by
  intro y
  unfold usCalAlt
  by_cases h : y = 2024
  · subst h
    rw [if_pos rfl]
    show (usCal 2024).Perm usHolidays2024.reverse
    rw [show usCal 2024 = usHolidays2024 from rfl]
    exact usHolidays2024.reverse_perm.symm
  · rw [if_neg h]

/-- C8: for identical forecast start date and horizon, the covariate
builder is insensitive to the enumeration order of the holiday source
(the Python dict is sorted by date before columns are created): any two
pointwise-permuted sources yield identical matrices and identical column
lists, and the matrix always has exactly `time_period` rows. -/
theorem covariate_build_deterministic (cal1 cal2 : Nat → List (Nat × String))
    (end_date time_period : Nat) (hperm : ∀ y, (cal1 y).Perm (cal2 y)) :
    preMatrix cal1 end_date time_period = preMatrix cal2 end_date time_period ∧
    holidayColumns (allHolidaysSorted cal1 (uniqueYears end_date time_period)) =
      holidayColumns (allHolidaysSorted cal2 (uniqueYears end_date time_period)) ∧
    (preMatrix cal1 end_date time_period).length = time_period := by
  have hsort := allHolidaysSorted_congr_perm cal1 cal2 hperm
    (uniqueYears end_date time_period)
  refine ⟨?_, by rw [hsort], preMatrix_length _ _ _⟩
  unfold preMatrix
  rw [hsort]

/-- Witness for `covariate_build_deterministic`: the US source and its
2024-reversed variant produce the same matrix for the two-week scenario. -/
theorem covariate_build_deterministic_witness :
    preMatrix usCal (daysFromCivil 2023 12 31) 2 =
      preMatrix usCalAlt (daysFromCivil 2023 12 31) 2 ∧
    holidayColumns (allHolidaysSorted usCal
      (uniqueYears (daysFromCivil 2023 12 31) 2)) =
      holidayColumns (allHolidaysSorted usCalAlt
        (uniqueYears (daysFromCivil 2023 12 31) 2)) ∧
    (preMatrix usCal (daysFromCivil 2023 12 31) 2).length = 2 :=
  covariate_build_deterministic usCal usCalAlt (daysFromCivil 2023 12 31) 2
    usCal_perm_usCalAlt

/-- C3: in the pre-scaling indicator matrix, the cell at week row `i` and
column `j` is 1 exactly when some occurrence date of that canonical
holiday among the retrieved years lies in the closed window
[week_start, week_start + 6]; a week whose window contains no holiday date
at all has an all-zero row. -/
theorem indicator_cell_spec (cal : Nat → List (Nat × String))
    (end_date time_period i j : Nat) (hi : i < time_period)
    (hj : j < (holidayColumns (allHolidaysSorted cal
      (uniqueYears end_date time_period))).length) :
    (((preMatrix cal end_date time_period).getD i []).getD j 0 = 1 ↔
      ∃ d nm,
        (d, nm) ∈ allHolidaysSorted cal (uniqueYears end_date time_period) ∧
        standardize nm = (holidayColumns (allHolidaysSorted cal
          (uniqueYears end_date time_period))).getD j "" ∧
        end_date + 7 * (i + 1) ≤ d ∧ d ≤ end_date + 7 * (i + 1) + 6) ∧
    ((¬ ∃ d nm,
        (d, nm) ∈ allHolidaysSorted cal (uniqueYears end_date time_period) ∧
        end_date + 7 * (i + 1) ≤ d ∧ d ≤ end_date + 7 * (i + 1) + 6) →
      ∀ v ∈ (preMatrix cal end_date time_period).getD i [], v = 0) := by
  rw [preMatrix_row cal end_date time_period i hi]
  constructor
  · unfold holidayRow
    rw [List.getD_eq_getElem _ _ (by simpa using hj), List.getElem_map,
        List.getD_eq_getElem _ _ hj]
    constructor
    · intro h1
      by_cases hcond : (holidayDates
          (allHolidaysSorted cal (uniqueYears end_date time_period))
          (holidayColumns (allHolidaysSorted cal
            (uniqueYears end_date time_period)))[j]).any
          (fun d => decide (end_date + 7 * (i + 1) ≤ d) &&
            decide (d ≤ end_date + 7 * (i + 1) + 6))
      · obtain ⟨d, hdmem, hdw⟩ := List.any_eq_true.mp hcond
        rw [mem_holidayDates] at hdmem
        obtain ⟨nm, hnm, hstd⟩ := hdmem
        simp only [Bool.and_eq_true, decide_eq_true_eq] at hdw
        exact ⟨d, nm, hnm, hstd, hdw.1, hdw.2⟩
      · rw [if_neg hcond] at h1
        exact absurd h1 (by norm_num)
    · rintro ⟨d, nm, hnm, hstd, h1, h2⟩
      rw [if_pos]
      apply List.any_eq_true.mpr
      refine ⟨d, (mem_holidayDates _ _ _).mpr ⟨nm, hnm, hstd⟩, ?_⟩
      simp [h1, h2]
  · intro hno v hv
    unfold holidayRow at hv
    obtain ⟨c, hc, rfl⟩ := List.mem_map.mp hv
    rw [if_neg]
    intro hcond
    obtain ⟨d, hdmem, hdw⟩ := List.any_eq_true.mp hcond
    rw [mem_holidayDates] at hdmem
    obtain ⟨nm, hnm, hstd⟩ := hdmem
    simp only [Bool.and_eq_true, decide_eq_true_eq] at hdw
    exact hno ⟨d, nm, hnm, hdw.1, hdw.2⟩

/-- Witness for `indicator_cell_spec`: the New-Year column (index 0) of
the single week [2023-12-31, 2024-01-06] for the 2023-12-24 scenario. -/
theorem indicator_cell_spec_witness :
    (((preMatrix usCal (daysFromCivil 2023 12 24) 1).getD 0 []).getD 0 0 = 1 ↔
      ∃ d nm,
        (d, nm) ∈ allHolidaysSorted usCal
          (uniqueYears (daysFromCivil 2023 12 24) 1) ∧
        standardize nm = (holidayColumns (allHolidaysSorted usCal
          (uniqueYears (daysFromCivil 2023 12 24) 1))).getD 0 "" ∧
        daysFromCivil 2023 12 24 + 7 * (0 + 1) ≤ d ∧
        d ≤ daysFromCivil 2023 12 24 + 7 * (0 + 1) + 6) ∧
    ((¬ ∃ d nm,
        (d, nm) ∈ allHolidaysSorted usCal
          (uniqueYears (daysFromCivil 2023 12 24) 1) ∧
        daysFromCivil 2023 12 24 + 7 * (0 + 1) ≤ d ∧
        d ≤ daysFromCivil 2023 12 24 + 7 * (0 + 1) + 6) →
      ∀ v ∈ (preMatrix usCal (daysFromCivil 2023 12 24) 1).getD 0 [], v = 0) :=
  indicator_cell_spec usCal (daysFromCivil 2023 12 24) 1 0 0
    (by decide) (by decide)

/-- Holiday source whose only data is New Year\x27s Day 2025, to exhibit a
window-extension holiday whose canonical column is entirely absent. -/
def janOnlyCal : Nat → List (Nat × String) := fun y =>
  if y = 2025 then [(daysFromCivil 2025 1 1, "New Year\x27s Day")] else []

lemma usCal_year_consistent : ∀ y p, p ∈ usCal y → yearOfDay p.1 = y := by
  intro y p hp
  unfold usCal at hp
  split_ifs at hp with h1 h2
  · subst h1
    have hall : usHolidays2023.all (fun q => decide (yearOfDay q.1 = 2023)) = true := by
      decide
    exact of_decide_eq_true (List.all_eq_true.mp hall p hp)
  · subst h2
    have hall : usHolidays2024.all (fun q => decide (yearOfDay q.1 = 2024)) = true := by
      decide
    exact of_decide_eq_true (List.all_eq_true.mp hall p hp)
  · exact absurd hp (List.not_mem_nil p)

/-- C10: the years whose holidays are retrieved are exactly the calendar
years of the horizon week-start dates; hence a date outside those years
(year-consistent source) appears in no retrieved holiday entry and in no
column date set, so it can never switch an indicator to 1; and for a week
whose window extends into a following year holding the only data, the
column is entirely absent (the janOnlyCal instance: week 2024-12-29,
window through 2025-01-04 containing 2025-01-01, zero columns). -/
theorem retrieved_years_spec (cal : Nat → List (Nat × String))
    (end_date time_period : Nat)
    (hcal : ∀ y p, p ∈ cal y → yearOfDay p.1 = y) (d : Nat)
    (hd : yearOfDay d ∉ (weeks end_date time_period).map yearOfDay) :
    (∀ y, y ∈ uniqueYears end_date time_period ↔
      y ∈ (weeks end_date time_period).map yearOfDay) ∧
    (∀ nm, (d, nm) ∉ allHolidaysSorted cal (uniqueYears end_date time_period)) ∧
    (∀ c, d ∉ holidayDates
      (allHolidaysSorted cal (uniqueYears end_date time_period)) c) ∧
    holidayColumns (allHolidaysSorted janOnlyCal
      (uniqueYears (daysFromCivil 2024 12 22) 1)) = [] ∧
    (weeks (daysFromCivil 2024 12 22) 1).getD 0 0 ≤ daysFromCivil 2025 1 1 ∧
    daysFromCivil 2025 1 1 ≤ (weeks (daysFromCivil 2024 12 22) 1).getD 0 0 + 6 := by
  have hyears : ∀ y, y ∈ uniqueYears end_date time_period ↔
      y ∈ (weeks end_date time_period).map yearOfDay := by
    intro y
    rw [uniqueYears, mem_dedupFirst]
  have hnm : ∀ nm, (d, nm) ∉ allHolidaysSorted cal
      (uniqueYears end_date time_period) := by
    intro nm hmem
    rw [mem_allHolidaysSorted] at hmem
    obtain ⟨y, hy, hcaly⟩ := hmem
    have hyd : yearOfDay d = y := hcal y (d, nm) hcaly
    rw [← hyd] at hy
    exact hd ((hyears (yearOfDay d)).mp hy)
  refine ⟨hyears, hnm, ?_, by decide, by decide, by decide⟩
  intro c hdc
  rw [mem_holidayDates] at hdc
  obtain ⟨nm, hmem, _⟩ := hdc
  exact hnm nm hmem

/-- Witness for `retrieved_years_spec`: the 2023-12-24 horizon-1 scenario
and the date 2024-01-01 (a year containing no week-start date). -/
theorem retrieved_years_spec_witness :
    (∀ y, y ∈ uniqueYears (daysFromCivil 2023 12 24) 1 ↔
      y ∈ (weeks (daysFromCivil 2023 12 24) 1).map yearOfDay) ∧
    (∀ nm, (daysFromCivil 2024 1 1, nm) ∉ allHolidaysSorted usCal
      (uniqueYears (daysFromCivil 2023 12 24) 1)) ∧
    (∀ c, daysFromCivil 2024 1 1 ∉ holidayDates
      (allHolidaysSorted usCal (uniqueYears (daysFromCivil 2023 12 24) 1)) c) ∧
    holidayColumns (allHolidaysSorted janOnlyCal
      (uniqueYears (daysFromCivil 2024 12 22) 1)) = [] ∧
    (weeks (daysFromCivil 2024 12 22) 1).getD 0 0 ≤ daysFromCivil 2025 1 1 ∧
    daysFromCivil 2025 1 1 ≤ (weeks (daysFromCivil 2024 12 22) 1).getD 0 0 + 6 :=
  retrieved_years_spec usCal (daysFromCivil 2023 12 24) 1
    usCal_year_consistent (daysFromCivil 2024 1 1) (by decide)

lemma char_toNat_ofNat {n : Nat} (h : n < 55296) : (Char.ofNat n).toNat = n := by
  rw [Char.ofNat, dif_pos (Or.inl h)]
  rfl

lemma char_toLower_of_not_upper {c : Char} (h : ¬(65 ≤ c.toNat ∧ c.toNat ≤ 90)) :
    c.toLower = c := by
  show (if c.toNat ≥ 65 ∧ c.toNat ≤ 90 then Char.ofNat (c.toNat + 32) else c) = c
  rw [if_neg h]

lemma char_toLower_toNat_of_upper {c : Char} (h1 : 65 ≤ c.toNat)
    (h2 : c.toNat ≤ 90) : c.toLower.toNat = c.toNat + 32 := by
  show (if c.toNat ≥ 65 ∧ c.toNat ≤ 90 then Char.ofNat (c.toNat + 32) else c).toNat
      = c.toNat + 32
  rw [if_pos ⟨h1, h2⟩]
  exact char_toNat_ofNat (by omega)

lemma char_toLower_idem (c : Char) : c.toLower.toLower = c.toLower := by
  by_cases h : 65 ≤ c.toNat ∧ c.toNat ≤ 90
  · have h2 := char_toLower_toNat_of_upper h.1 h.2
    apply char_toLower_of_not_upper
    rw [h2]
    omega
  · rw [char_toLower_of_not_upper h]
    exact char_toLower_of_not_upper h

lemma char_toLower_eq_small {c d : Char} (hd : d.toNat < 97)
    (h : c.toLower = d) : c = d := by
  by_cases hc : 65 ≤ c.toNat ∧ c.toNat ≤ 90
  · exfalso
    have := char_toLower_toNat_of_upper hc.1 hc.2
    rw [h] at this
    omega
  · rwa [char_toLower_of_not_upper hc] at h

lemma replaceGo_cons_ne (p : Char) (ps repl : List Char) (c : Char)
    (l : List Char) (h : c ≠ p) :
    replaceGo (p :: ps) repl 0 (c :: l) = c :: replaceGo (p :: ps) repl 0 l := by
  have hpre : ((p :: ps).isPrefixOf (c :: l)) = false := by
    rw [List.isPrefixOf_cons₂]
    simp [beq_iff_eq]
    intro h1
    exact absurd h1.symm h
  simp only [replaceGo, hpre, Bool.false_eq_true, if_false]

lemma replaceGo_append_left (p : Char) (ps repl : List Char) :
    ∀ (pre l : List Char), (∀ c ∈ pre, c ≠ p) →
      replaceGo (p :: ps) repl 0 (pre ++ l) = pre ++ replaceGo (p :: ps) repl 0 l
  | [], l, _ => by simp
  | c :: pre, l, h => by
    rw [List.cons_append,
        replaceGo_cons_ne p ps repl c (pre ++ l) (h c (List.mem_cons_self c pre)),
        replaceGo_append_left p ps repl pre l
          (fun x hx => h x (List.mem_cons_of_mem c hx)),
        List.cons_append]

lemma replaceGo_single_cons_self (p : Char) (repl l : List Char) :
    replaceGo [p] repl 0 (p :: l) = repl ++ replaceGo [p] repl 0 l := by
  have hpre : ([p].isPrefixOf (p :: l)) = true := by
    rw [List.isPrefixOf_cons₂]
    simp
  simp only [replaceGo, hpre, if_true, List.length_cons, List.length_nil]

lemma replaceGo_single_not_mem (p : Char) (repl : List Char) :
    ∀ l : List Char, p ∉ l → replaceGo [p] repl 0 l = l
  | [], _ => rfl
  | c :: l, h => by
    have hc : c ≠ p := fun hcp => h (hcp ▸ List.mem_cons_self c l)
    rw [replaceGo_cons_ne p [] repl c l hc,
        replaceGo_single_not_mem p repl l (fun hm => h (List.mem_cons_of_mem c hm))]

lemma not_mem_replaceGo_single (p : Char) (repl : List Char) (hrepl : p ∉ repl) :
    ∀ l : List Char, p ∉ replaceGo [p] repl 0 l
  | [] => by simp [replaceGo]
  | c :: l => by
    by_cases hc : c = p
    · subst hc
      rw [replaceGo_single_cons_self]
      intro hmem
      rcases List.mem_append.mp hmem with h1 | h1
      · exact hrepl h1
      · exact not_mem_replaceGo_single c repl hrepl l h1
    · rw [replaceGo_cons_ne p [] repl c l hc]
      intro hmem
      rcases List.mem_cons.mp hmem with h1 | h1
      · exact hc h1.symm
      · exact not_mem_replaceGo_single p repl hrepl l h1

lemma mem_of_mem_replaceGo (pat repl : List Char) (c : Char) :
    ∀ (l : List Char) (k : Nat), c ∈ replaceGo pat repl k l → c ∈ l ∨ c ∈ repl
  | [], k => by intro h; simp [replaceGo] at h
  | a :: l, Nat.succ n => by
    intro h
    have h2 : c ∈ replaceGo pat repl n l := h
    rcases mem_of_mem_replaceGo pat repl c l n h2 with h1 | h1
    · exact Or.inl (List.mem_cons_of_mem a h1)
    · exact Or.inr h1
  | a :: l, 0 => by
    intro h
    by_cases hpre : pat.isPrefixOf (a :: l)
    · rw [show replaceGo pat repl 0 (a :: l) =
          repl ++ replaceGo pat repl (pat.length - 1) l from by
            simp only [replaceGo, hpre, if_true]] at h
      rcases List.mem_append.mp h with h1 | h1
      · exact Or.inr h1
      · rcases mem_of_mem_replaceGo pat repl c l _ h1 with h2 | h2
        · exact Or.inl (List.mem_cons_of_mem a h2)
        · exact Or.inr h2
    · rw [show replaceGo pat repl 0 (a :: l) =
          a :: replaceGo pat repl 0 l from by
            simp only [replaceGo, hpre, Bool.false_eq_true, if_false]] at h
      rcases List.mem_cons.mp h with h1 | h1
      · exact Or.inl (h1 ▸ List.mem_cons_self a l)
      · rcases mem_of_mem_replaceGo pat repl c l 0 h1 with h2 | h2
        · exact Or.inl (List.mem_cons_of_mem a h2)
        · exact Or.inr h2

lemma takeUntilPat_no_space :
    ∀ l : List Char, ' ' ∉ l → takeUntilPat [' ', '('] l = l
  | [], _ => rfl
  | c :: l, h => by
    have hc : c ≠ ' ' := fun hcp => h (hcp ▸ List.mem_cons_self c l)
    have hpre : ([' ', '('].isPrefixOf (c :: l)) = false := by
      rw [List.isPrefixOf_cons₂]
      simp [beq_iff_eq]
      intro h1
      exact absurd h1.symm hc
    rw [takeUntilPat, if_neg (by rw [hpre]; exact Bool.false_ne_true),
        takeUntilPat_no_space l (fun hm => h (List.mem_cons_of_mem c hm))]

lemma length_replaceGo_aposS :
    ∀ l : List Char, ∃ k, l.length = (replaceGo aposS [] 0 l).length + 2 * k
  | [] => ⟨0, by simp [replaceGo]⟩
  | [c] => by
    refine ⟨0, ?_⟩
    have hpre : (aposS.isPrefixOf [c]) = false := by
      rw [aposS, List.isPrefixOf_cons₂]
      simp
    simp [replaceGo, hpre]
  | c1 :: c2 :: l => by
    by_cases hpre : aposS.isPrefixOf (c1 :: c2 :: l)
    · obtain ⟨k, hk⟩ := length_replaceGo_aposS l
      refine ⟨k + 1, ?_⟩
      have he : replaceGo aposS [] 0 (c1 :: c2 :: l) = replaceGo aposS [] 0 l := by
        have h1 : replaceGo aposS [] 0 (c1 :: c2 :: l) =
            [] ++ replaceGo aposS [] (aposS.length - 1) (c2 :: l) := by
          simp only [replaceGo, hpre, if_true]
        rw [h1, List.nil_append]
        rfl
      rw [he]
      simp only [List.length_cons]
      omega
    · obtain ⟨k, hk⟩ := length_replaceGo_aposS (c2 :: l)
      refine ⟨k, ?_⟩
      have he : replaceGo aposS [] 0 (c1 :: c2 :: l) =
          c1 :: replaceGo aposS [] 0 (c2 :: l) := by
        simp only [replaceGo, hpre, Bool.false_eq_true, if_false]
      rw [he]
      simp only [List.length_cons] at hk ⊢
      omega

lemma no_space_cleanChars (s : List Char) : ' ' ∉ cleanChars s := by
  unfold cleanChars
  intro hmem
  obtain ⟨c, hc, hlc⟩ := List.mem_map.mp hmem
  have hsp : c = ' ' := char_toLower_eq_small (by decide) hlc
  subst hsp
  rw [replaceAll, if_neg (by simp)] at hc
  exact not_mem_replaceGo_single ' ' ['_'] (by decide) _ hc

lemma no_dot_cleanChars (s : List Char) : '.' ∉ cleanChars s := by
  unfold cleanChars
  intro hmem
  obtain ⟨c, hc, hlc⟩ := List.mem_map.mp hmem
  have hdt : c = '.' := char_toLower_eq_small (by decide) hlc
  subst hdt
  rw [replaceAll, if_neg (by simp)] at hc
  rcases mem_of_mem_replaceGo [' '] ['_'] '.' _ 0 hc with h1 | h1
  · rw [replaceAll, if_neg (by simp)] at h1
    exact not_mem_replaceGo_single '.' [] (by simp) _ h1
  · exact absurd h1 (by decide)

lemma toLower_fixed_cleanChars (s : List Char) :
    ∀ c ∈ cleanChars s, c.toLower = c := by
  intro c hc
  unfold cleanChars at hc
  obtain ⟨b, hb, rfl⟩ := List.mem_map.mp hc
  exact char_toLower_idem b

lemma cleanChars_hldy_append (u : List Char)
    (hsp : ' ' ∉ u) (hdot : '.' ∉ u) (hfix : ∀ c ∈ u, c.toLower = c) :
    cleanChars ("hldy_".data ++ u) = "hldy_".data ++ replaceGo aposS [] 0 u := by
  unfold cleanChars
  have h1 : takeUntilPat [' ', '('] ("hldy_".data ++ u) = "hldy_".data ++ u := by
    apply takeUntilPat_no_space
    intro hmem
    rcases List.mem_append.mp hmem with h | h
    · exact absurd h (by decide)
    · exact hsp h
  rw [h1]
  have h2 : replaceAll aposS [] ("hldy_".data ++ u) =
      "hldy_".data ++ replaceGo aposS [] 0 u := by
    rw [replaceAll, if_neg (by simp [aposS])]
    rw [show aposS = '\x27' :: ['s'] from rfl]
    exact replaceGo_append_left '\x27' ['s'] [] "hldy_".data u (by decide)
  rw [h2]
  have hvsub : ∀ c, c ∈ replaceGo aposS [] 0 u → c ∈ u := by
    intro c hc
    rcases mem_of_mem_replaceGo aposS [] c u 0 hc with h | h
    · exact h
    · exact absurd h (List.not_mem_nil c)
  have h3 : replaceAll ['.'] [] ("hldy_".data ++ replaceGo aposS [] 0 u) =
      "hldy_".data ++ replaceGo aposS [] 0 u := by
    rw [replaceAll, if_neg (by simp)]
    apply replaceGo_single_not_mem
    intro hmem
    rcases List.mem_append.mp hmem with h | h
    · exact absurd h (by decide)
    · exact hdot (hvsub _ h)
  rw [h3]
  have h4 : replaceAll [' '] ['_'] ("hldy_".data ++ replaceGo aposS [] 0 u) =
      "hldy_".data ++ replaceGo aposS [] 0 u := by
    rw [replaceAll, if_neg (by simp)]
    apply replaceGo_single_not_mem
    intro hmem
    rcases List.mem_append.mp hmem with h | h
    · exact absurd h (by decide)
    · exact hsp (hvsub _ h)
  rw [h4, List.map_append]
  have hpref : ("hldy_".data).map Char.toLower = "hldy_".data := by decide
  have hmap : (replaceGo aposS [] 0 u).map Char.toLower =
      replaceGo aposS [] 0 u := by
    have h5 : (replaceGo aposS [] 0 u).map Char.toLower =
        (replaceGo aposS [] 0 u).map id :=
      List.map_congr_left (fun a ha => hfix a (hvsub a ha))
    rw [h5, List.map_id]
  rw [hpref, hmap]

/-- C9 amended: the canonicalization rule is never idempotent: applying it
to its own output always prepends the feature prefix a second time (the
possessive and punctuation removal can also drop further characters), so
the re-applied identifier always differs from the once-applied one. -/
theorem standardize_not_idempotent (s : String) :
    standardize (standardize s) ≠ standardize s := by
  intro heq
  have hdata : standardizeChars (standardizeChars s.data) =
      standardizeChars s.data := congrArg String.data heq
  rw [show standardizeChars (standardizeChars s.data) =
      "hldy_".data ++ cleanChars ("hldy_".data ++ cleanChars s.data) from rfl,
    show standardizeChars s.data = "hldy_".data ++ cleanChars s.data from rfl]
    at hdata
  rw [cleanChars_hldy_append (cleanChars s.data) (no_space_cleanChars s.data)
    (no_dot_cleanChars s.data) (toLower_fixed_cleanChars s.data)] at hdata
  have hv : "hldy_".data ++ replaceGo aposS [] 0 (cleanChars s.data) =
      cleanChars s.data := (List.append_right_inj _).mp hdata
  obtain ⟨k, hk⟩ := length_replaceGo_aposS (cleanChars s.data)
  have hlen := congrArg List.length hv
  rw [List.length_append, show ("hldy_".data).length = 5 from rfl] at hlen
  omega

/-- C9 counterexample: canonicalizing the canonical identifier of
"New Year\x27s Day" again yields "hldy_hldy_new_year_day", not the
once-canonicalized "hldy_new_year_day": the rule is not idempotent. -/
theorem standardize_twice_cex :
    standardize (standardize "New Year\x27s Day") ≠
      standardize "New Year\x27s Day" ∧
    standardize (standardize "New Year\x27s Day") = "hldy_hldy_new_year_day" ∧
    standardize "New Year\x27s Day" = "hldy_new_year_day" := by
  refine ⟨by decide, by decide, by decide⟩

/-- Witness for `standardize_not_idempotent` at the label "Memorial Day". -/
theorem standardize_not_idempotent_witness :
    standardize (standardize "Memorial Day") ≠ standardize "Memorial Day" :=
  standardize_not_idempotent "Memorial Day"
